import Mathlib

/-!
Verification development for the Canaria ingestion/storage/fan-out engine.

Each definition is a shallow embedding of a function of the repository,
named after the source symbol where Lean allows it.  JavaScript runtime
facilities that the code calls (Date parsing/formatting, `Number(...)`
coercion, Ed25519 signing) are abstracted as explicit function parameters,
bundled in `JsEnv` where several are needed at once; everything else is
translated directly from the source.
-/

namespace Canaria

/-! ## Event data model (packages/api/src/storage.ts, @canaria/types) -/

/-- TypeScript `number | string` as it occurs in `reportType`. -/
inductive RType where
  | num (n : Int)
  | str (s : String)
deriving Repr, DecidableEq

/-- Canonical event record (interface `EventRecord`).  JS numbers are
modelled as `Rat` (all finite); `null`/`undefined` as `Option`. -/
structure EventRecord where
  eventId : String
  source : String
  type : String
  reportType : Option RType
  time : String
  issueTime : Option String
  receiveTime : String
  receiveSource : String
  latitude : Option Rat
  longitude : Option Rat
  magnitude : Option Rat
  depth : Option Rat
  intensity : Option Rat
  region : Option String
  advisory : Option String
  revision : Option String
deriving Repr, DecidableEq

/-- The `events` table, in row-insertion order.  `eventId` is the primary
key. -/
abbrev EventsTable := List EventRecord

/-- Lexicographic order on character lists: SQLite's ordering of TEXT
columns (byte order; identical to code-point order on the ASCII
timestamps stored here). -/
def charListLt : List Char → List Char → Bool
  | _, [] => false
  | [], _ :: _ => true
  | a :: as, b :: bs => if a = b then charListLt as bs else decide (a < b)

/-- Strict TEXT comparison on strings. -/
def strLtB (a b : String) : Bool := charListLt a.toList b.toList

/-- Non-strict TEXT comparison on strings. -/
def strLeB (a b : String) : Bool := !(strLtB b a)

namespace EventStore

/-- One `INSERT OR IGNORE INTO events ...` statement: the row is appended
only when no row with the same `eventId` exists; the second component is
`changes` (1 when a row materialized, 0 when ignored). -/
def insertRow (tbl : EventsTable) (ev : EventRecord) : EventsTable × Nat :=
  if tbl.any (fun r => r.eventId == ev.eventId) then (tbl, 0)
  else (tbl ++ [ev], 1)

/-- `EventStore.insert(events)`: the loop over the prepared statement,
accumulating the number of rows that actually materialized. -/
def insert (tbl : EventsTable) : List EventRecord → EventsTable × Nat
  | [] => (tbl, 0)
  | ev :: rest =>
    let step := insertRow tbl ev
    let restResult := insert step.1 rest
    (restResult.1, step.2 + restResult.2)

/-- `EventStore.insert(events)` as deployed: the Durable Object wires the
store to the repo's `SqliteAdapter`, whose `prepare(...).run(...)` always
returns `{ changes: 1 }` regardless of what the statement did.  The SQL
effect (`INSERT OR IGNORE`) is unchanged, but `result.changes === 1` holds
for every event, so every event of the batch is counted. -/
def insertDO (tbl : EventsTable) : List EventRecord → EventsTable × Nat
  | [] => (tbl, 0)
  | ev :: rest =>
    let step := insertRow tbl ev
    let restResult := insertDO step.1 rest
    (restResult.1, 1 + restResult.2)

/-- `EventStore.count()` (`SELECT COUNT(1) FROM events`). -/
def count (tbl : EventsTable) : Nat := tbl.length

/-- `EventStore.latest()` (`SELECT * FROM events ORDER BY time DESC LIMIT 1`):
a row with maximal `time` (SQLite's choice among ties is unspecified; we
determinize to the first such row). -/
def latest : EventsTable → Option EventRecord
  | [] => none
  | e :: es => some (es.foldl (fun best r => if strLtB best.time r.time then r else best) e)

end EventStore

/-- The primary-key invariant of the `events` table: at most one row per
`eventId`. -/
def uniqueIds (tbl : EventsTable) : Prop := (tbl.map EventRecord.eventId).Nodup

instance : DecidablePred uniqueIds := fun tbl =>
  inferInstanceAs (Decidable ((tbl.map EventRecord.eventId).Nodup))

/-! ## RateLimiter (packages/api/src/ratelimit.ts) -/

/-- A configured rule `{maxRequests, windowSeconds}` for one endpoint. -/
structure RateLimitRule where
  maxRequests : Nat
  windowSeconds : Nat
deriving Repr, DecidableEq

/-- One row of the `rate_limits` table for a fixed `ip:endpoint` key. -/
structure RateRow where
  count : Nat
  window_start : Nat
deriving Repr, DecidableEq

/-- Return type of `RateLimiter.check`. -/
structure RateLimitResult where
  allowed : Bool
  limit : Nat
  remaining : Nat
  resetAt : Nat
deriving Repr, DecidableEq

namespace RateLimiter

/-- `RateLimiter.check(ip, endpoint)` for one key.  `enabled` is
`config.isRateLimitEnabled()`, `rule` is `config.getRateLimit(endpoint)`
(`none` when no rule matches), `row` is the stored `rate_limits` row for
the key `ip:endpoint`, `now` is `Math.floor(Date.now() / 1000)`.  Returns
the result together with the row as stored after the call.  JS
`Math.max(0, maxRequests - count - 1)` coincides with truncated `Nat`
subtraction. -/
def check (enabled : Bool) (rule : Option RateLimitRule) (row : Option RateRow)
    (now : Nat) : RateLimitResult × Option RateRow :=
  if !enabled then ({ allowed := true, limit := 0, remaining := 0, resetAt := 0 }, row)
  else
    match rule with
    | none => ({ allowed := true, limit := 0, remaining := 0, resetAt := 0 }, row)
    | some lim =>
      let windowStart := now - now % lim.windowSeconds
      let cnt : Nat :=
        match row with
        | some r => if r.window_start = windowStart then r.count else 0
        | none => 0
      let allowed := cnt < lim.maxRequests
      let remaining := lim.maxRequests - cnt - 1
      let resetAt := windowStart + lim.windowSeconds
      let row' := if allowed then some ⟨cnt + 1, windowStart⟩ else row
      ({ allowed := allowed, limit := lim.maxRequests, remaining := remaining,
         resetAt := resetAt }, row')

/-- `n` consecutive `check` calls on the same key at the same second,
threading the stored row. -/
def checkN (enabled : Bool) (rule : Option RateLimitRule) (now : Nat) :
    Nat → Option RateRow → Option RateRow
  | 0, row => row
  | n + 1, row => (check enabled rule (checkN enabled rule now n row) now).2

end RateLimiter

/-! ## Signer (packages/api/src/signer.ts) -/

/-- A JavaScript value as handed to `JSON.stringify` (object fields in
insertion order, numbers restricted to the integers actually signed). -/
inductive JsValue where
  | jsNull
  | jsBool (b : Bool)
  | jsNum (n : Int)
  | jsStr (s : String)
  | jsArr (xs : List JsValue)
  | jsObj (fields : List (String × JsValue))

/-- JSON string escaping (quotation mark and backslash). -/
def jsonEscape (s : String) : String :=
  s.toList.foldl
    (fun acc c =>
      if c = '"' then acc ++ "\\\""
      else if c = '\\' then acc ++ "\\\\"
      else acc.push c) ""

mutual

/-- Deterministic `JSON.stringify`. -/
def jsonStringify : JsValue → String
  | .jsNull => "null"
  | .jsBool b => if b then "true" else "false"
  | .jsNum n => toString n
  | .jsStr s => "\"" ++ jsonEscape s ++ "\""
  | .jsArr xs => "[" ++ jsonStringifyArr xs ++ "]"
  | .jsObj fs => "\x7b" ++ jsonStringifyObj fs ++ "\x7d"

def jsonStringifyArr : List JsValue → String
  | [] => ""
  | [x] => jsonStringify x
  | x :: y :: rest => jsonStringify x ++ "," ++ jsonStringifyArr (y :: rest)

def jsonStringifyObj : List (String × JsValue) → String
  | [] => ""
  | [f] => "\"" ++ jsonEscape f.1 ++ "\":" ++ jsonStringify f.2
  | f :: g :: rest =>
    "\"" ++ jsonEscape f.1 ++ "\":" ++ jsonStringify f.2 ++ "," ++
      jsonStringifyObj (g :: rest)

end

/-- The envelope `{payload, signature, timestamp}` returned by
`Signer.sign`. -/
structure SignedEnvelope where
  payload : String
  signature : String
  timestamp : Int
deriving Repr, DecidableEq

/-- `Signer.sign(data)`.  `sig` abstracts
`base64(Ed25519-sign(privateKey, message))`: by RFC 8032, Ed25519 signing
is a deterministic function of the key and the message, so for a fixed
key it is a function of the message text.  `nowMs` is `Date.now()`. -/
def signerSign (sig : String → String) (data : JsValue) (nowMs : Int) : SignedEnvelope :=
  let payloadString := jsonStringify data
  { payload := payloadString, signature := sig payloadString, timestamp := nowMs }

/-! ## IngestService and POST /v1/events
    (packages/api/src/ingest.ts, the unnamed events-route file) -/

/-- Parser statistics carried optionally inside a heartbeat. -/
structure HeartbeatStats where
  totalParses : Nat
  successfulParses : Nat
  failedParses : Nat
  eventsIngested : Nat
  averageDelayMs : Rat
  uptime : Nat
deriving Repr, DecidableEq

/-- Heartbeat reported by the external poller (interface `Heartbeat`). -/
structure Heartbeat where
  kmaConnection : Bool
  lastParseTime : String
  lastEventTime : Option String
  delayMs : Int
  error : Option String
  stats : Option HeartbeatStats := none
deriving Repr, DecidableEq

/-- One entry of the parser error ring. -/
structure ParserError where
  timestamp : String
  error : String
deriving Repr, DecidableEq

/-- JS truthiness of a `string | null | undefined` value: the empty string
is falsy. -/
def strTruthy : Option String → Option String
  | none => none
  | some s => if s = "" then none else some s

def MAX_PARSER_ERRORS : Nat := 10

/-- The mutable state owned by `IngestService` together with the effects it
drives: the `events` table, each `connectionManager.broadcast({signedEvents})`
payload, and the number of scheduled backup uploads. -/
structure SystemState where
  events : EventsTable
  parserHeartbeat : Option Heartbeat
  parserErrorHistory : List ParserError
  needsKmaSync : Bool
  lastStoredAt : Option String
  broadcasts : List (List SignedEnvelope)
  backupCount : Nat
deriving Repr, DecidableEq

/-- The fresh `IngestService` state (`needsKmaSync = true`) over an empty
store. -/
def initialState : SystemState :=
  { events := [], parserHeartbeat := none, parserErrorHistory := [],
    needsKmaSync := true, lastStoredAt := none, broadcasts := [], backupCount := 0 }

/-- `IngestService.handleHeartbeat(heartbeat)`: store the heartbeat, prepend
to the error ring when the heartbeat carries a (truthy) error and trim the
ring to `MAX_PARSER_ERRORS`, and clear `needsKmaSync` on the first heartbeat
reporting the KMA authority reachable. -/
def handleHeartbeat (s : SystemState) (hb : Heartbeat) : SystemState :=
  let hist :=
    match strTruthy hb.error with
    | some e =>
      let h := ⟨hb.lastParseTime, e⟩ :: s.parserErrorHistory
      if h.length > MAX_PARSER_ERRORS then h.take MAX_PARSER_ERRORS else h
    | none => s.parserErrorHistory
  let needs := if s.needsKmaSync && hb.kmaConnection then false else s.needsKmaSync
  { s with parserHeartbeat := some hb, parserErrorHistory := hist,
           needsKmaSync := needs }

/-- `IngestService.handleIncomingEvents(events)`.  `signFn` abstracts
`signer.sign` applied to one event, `now` is `new Date().toISOString()`.
The batch is stored through `EventStore.insert`; only when at least one row
materialized the service updates `lastStoredAt`, signs every event of the
batch, broadcasts a single `{signedEvents}` payload, and schedules one
backup upload. -/
def handleIncomingEvents (signFn : EventRecord → SignedEnvelope) (now : String)
    (s : SystemState) (events : List EventRecord) : SystemState :=
  if events.length = 0 then s
  else
    let step := EventStore.insert s.events events
    if 0 < step.2 then
      { s with events := step.1,
               lastStoredAt := some now,
               broadcasts := s.broadcasts ++ [events.map signFn],
               backupCount := s.backupCount + 1 }
    else { s with events := step.1 }

/-- Body of `POST /v1/events`. -/
structure IngestPayload where
  heartbeat : Option Heartbeat := none
  events : Option (List EventRecord) := none

/-- The two responses of `POST /v1/events`: 200 `{sync:true}` or 204. -/
inductive EventsResponse where
  | syncTrue
  | noContent
deriving Repr, DecidableEq

/-- The `POST /v1/events` handler of the events route file, statement for
statement: it first delegates the heartbeat to
`ingestService.handleHeartbeat`, then ingests the events, then reads
`wasNeeded` from `ingestService.needsKmaSync` and `hasKma` from the payload,
calls `handleHeartbeat` a second time, and responds 200 `{sync:true}` when
`wasNeeded && hasKma`, else 204. -/
def postEvents (signFn : EventRecord → SignedEnvelope) (now : String)
    (s : SystemState) (payload : IngestPayload) : SystemState × EventsResponse :=
  let s1 :=
    match payload.heartbeat with
    | some hb => handleHeartbeat s hb
    | none => s
  let s2 :=
    match payload.events with
    | some evs => if evs.length = 0 then s1 else handleIncomingEvents signFn now s1 evs
    | none => s1
  let wasNeeded := s2.needsKmaSync
  let hasKma :=
    match payload.heartbeat with
    | some hb => hb.kmaConnection
    | none => false
  let s3 :=
    match payload.heartbeat with
    | some hb => handleHeartbeat s2 hb
    | none => s2
  if wasNeeded && hasKma then (s3, .syncTrue) else (s3, .noContent)

/-! ## Normalizers and the P2P feed filter
    (the unnamed feeds file, packages/api normalizers) -/

/-- JavaScript runtime facilities used by the normalizers, abstracted as
functions: `nowIso` is `new Date().toISOString()`, `nowMs` is `Date.now()`,
`parseDateIso s` is `new Date(s).toISOString()` (`none` when the date is
invalid), `numOfString s` is `Number(s)` (`none` when not finite), and
`strOfNum` is JS number-to-string conversion. -/
structure JsEnv where
  nowIso : String
  nowMs : Int
  parseDateIso : String → Option String
  numOfString : String → Option Rat
  strOfNum : Rat → String

/-- The normalizers' `numeric(value)` helper on a `string | number`
input: strings go through `Number(...)`, only finite results survive. -/
def numeric (env : JsEnv) : Option (String ⊕ Rat) → Option Rat
  | none => none
  | some (.inl s) => env.numOfString s
  | some (.inr r) => some r

/-- JS `a.replace(pat, sub)` with a plain string pattern: replaces only the
first occurrence. -/
def replaceFirst (s pat sub : String) : String :=
  match s.splitOn pat with
  | [] => s
  | [x] => x
  | x :: y :: rest => x ++ sub ++ String.intercalate pat (y :: rest)

/-- JS `String(p).replace(/\s+/g, "_")`: collapse each maximal run of
(ASCII) whitespace into a single underscore. -/
def collapseWs (s : String) : String :=
  (s.toList.foldl
    (fun (acc : String × Bool) c =>
      if c = ' ' ∨ c = '\t' ∨ c = '\n' ∨ c = '\r' then
        (if acc.2 then acc.1 else acc.1.push '_', true)
      else (acc.1.push c, false))
    ("", false)).1

/-- A `string | number | null | undefined` part of a synthetic id. -/
inductive SynPart where
  | str (s : String)
  | num (r : Rat)

/-- `buildSyntheticId(prefix, ...parts)`: drop null/undefined/empty-string
parts, stringify and collapse whitespace, join with `-`; when nothing is
left, fall back to `Date.now()`. -/
def buildSyntheticId (env : JsEnv) (pre : String) (parts : List (Option SynPart)) : String :=
  let strs := parts.filterMap fun p =>
    match p with
    | none => none
    | some (.str s) => if s = "" then none else some (collapseWs s)
    | some (.num r) => some (collapseWs (env.strOfNum r))
  let normalized := String.intercalate "-" strs
  pre ++ "-" ++ (if normalized = "" then toString env.nowMs else normalized)

/-- `normalizeTime(timeStr)`: keep strings that already look ISO (contain
`T` and end in `Z` or contain `+`); otherwise turn `YYYY/MM/DD HH:mm:ss`
into ISO-like form, assume JST (`+09:00`) when no offset is present, and
re-format through the JS `Date` constructor, falling back to now on an
invalid date. -/
def normalizeTime (env : JsEnv) : Option String → String
  | none => env.nowIso
  | some s =>
    if s = "" then env.nowIso
    else if s.contains 'T' && (s.endsWith "Z" || s.contains '+') then s
    else
      let isoLike := replaceFirst (s.replace "/" "-") " " "T"
      let isoLike :=
        if !(isoLike.contains '+') && !(isoLike.endsWith "Z") then isoLike ++ "+09:00"
        else isoLike
      match env.parseDateIso isoLike with
      | some iso => iso
      | none => env.nowIso

/-- A P2P frame after a successful parse against `P2PSchema` (`z.object`
with required numeric `code`; nested `issue`, `earthquake.hypocenter` and
`areas[].peer` fields are flattened). Schema-invalid raw frames make
`safeParse` fail and `normalizeP2pEvent` return null; they are outside this
embedding. -/
structure P2pPayload where
  code : Int
  time : Option String := none
  created_at : Option String := none
  issue_time : Option String := none
  issue_eventId : Option String := none
  issue_id : Option String := none
  issue_serial : Option String := none
  issue_type : Option String := none
  id : Option String := none
  uid : Option String := none
  count : Option Rat := none
  confidence : Option Rat := none
  areas : Option (List (Option Rat)) := none
  eq_time : Option String := none
  eq_magnitude : Option (String ⊕ Rat) := none
  eq_maxScale : Option (String ⊕ Rat) := none
  hypo_latitude : Option (String ⊕ Rat) := none
  hypo_longitude : Option (String ⊕ Rat) := none
  hypo_depth : Option (String ⊕ Rat) := none
  hypo_name : Option String := none
  tsunami : Option String := none

/-- `normalizeP2pEvent(raw)` on a schema-valid frame: the dedicated branches
for codes 9611 (user perception reports) and 555 (area detection
aggregates), then the generic earthquake branch. -/
def normalizeP2pEvent (env : JsEnv) (d : P2pPayload) : Option EventRecord :=
  if d.code = 9611 then
    let time := normalizeTime env (strTruthy d.time <|> strTruthy d.created_at)
    let issueTime :=
      match strTruthy d.issue_time with
      | some t => normalizeTime env (some t)
      | none => time
    some
      { eventId :=
          (strTruthy d.id <|> strTruthy d.uid).getD
            (buildSyntheticId env "p2p" [some (.str time), some (.str "9611")]),
        source := "P2PQUAKE", type := "UserReport", reportType := some (.num 9611),
        time := time, issueTime := some issueTime, receiveTime := env.nowIso,
        receiveSource := "P2P", latitude := none, longitude := none,
        magnitude := none, depth := none, intensity := none,
        region := some ("User Reports: " ++ env.strOfNum ((d.count).getD 0)),
        advisory :=
          match d.confidence with
          | some c => if c = 0 then none else some ("Confidence: " ++ env.strOfNum c)
          | none => none,
        revision := some "final" }
  else if d.code = 555 then
    let time := normalizeTime env d.time
    let areas := d.areas.getD []
    let areaCount := areas.length
    let totalPeers : Rat := (areas.map (fun a => a.getD 0)).sum
    some
      { eventId :=
          (strTruthy d.id <|> strTruthy d.uid).getD
            (buildSyntheticId env "p2p" [some (.str time), some (.str "555")]),
        source := "P2PQUAKE", type := "EEWDetection", reportType := some (.num 555),
        time := time, issueTime := some time, receiveTime := env.nowIso,
        receiveSource := "P2P", latitude := none, longitude := none,
        magnitude := none, depth := none, intensity := none,
        region := some
          ("Detected in " ++ toString areaCount ++ " area" ++
            (if areaCount = 1 then "" else "s") ++
            " (Total peers: " ++ env.strOfNum totalPeers ++ ")"),
        advisory := none, revision := some "final" }
  else
    let rawTime := strTruthy d.time <|> strTruthy d.eq_time <|> strTruthy d.issue_time
    let time := normalizeTime env rawTime
    let issueTime := (strTruthy d.issue_time).map (fun t => normalizeTime env (some t))
    let latitude := numeric env d.hypo_latitude
    let longitude := numeric env d.hypo_longitude
    let magnitude := numeric env d.eq_magnitude
    let depth := numeric env d.hypo_depth
    some
      { eventId :=
          (strTruthy d.id <|> strTruthy d.issue_eventId <|> strTruthy d.issue_id).getD
            (buildSyntheticId env "p2p"
              [some (.str time), latitude.map .num, longitude.map .num,
               magnitude.map .num, some (.num (d.code : Rat)),
               (d.issue_serial).map .str]),
        source := "P2PQUAKE",
        type := if d.code = 551 then "information" else toString d.code,
        reportType := some (.num d.code), time := time, issueTime := issueTime,
        receiveTime := env.nowIso, receiveSource := "P2P",
        latitude := latitude, longitude := longitude, magnitude := magnitude,
        depth := depth, intensity := numeric env d.eq_maxScale,
        region := strTruthy d.hypo_name,
        advisory := strTruthy d.tsunami,
        revision := strTruthy d.issue_type }

/-- The allow-list of upstream P2P codes enforced by
`FeedManager.handleP2pMessage`. -/
def ALLOWED_CODES : List Int := [551, 552, 556, 561]

/-- `FeedManager.handleP2pMessage(data)` for a frame carrying a numeric
`code`: frames whose code is not in `ALLOWED_CODES` are dropped; the rest
are normalized, and a successful normalization (`some`) is handed to
ingest via `options.onEvent`. -/
def handleP2pMessage (env : JsEnv) : Option P2pPayload → Option EventRecord
  | none => none
  | some d => if d.code ∉ ALLOWED_CODES then none else normalizeP2pEvent env d

/-! ## WebSocketConnector reconnect backoff (the unnamed feeds file) -/

def BASE_BACKOFF_MS : Nat := 2000
def MAX_BACKOFF_MS : Nat := 60000

/-- The `backoff` field of a `WebSocketConnector`. -/
structure ConnectorBackoff where
  backoff : Nat
deriving Repr, DecidableEq

/-- The connector as constructed (`backoff = BASE_BACKOFF_MS`). -/
def connectorInit : ConnectorBackoff := ⟨BASE_BACKOFF_MS⟩

/-- The socket `open` handler's effect on the backoff:
`this.backoff = BASE_BACKOFF_MS`. -/
def onSocketOpen (_c : ConnectorBackoff) : ConnectorBackoff := ⟨BASE_BACKOFF_MS⟩

/-- `scheduleReconnect()`: the reconnect timer is armed with the current
backoff as delay, and the backoff is doubled and capped
(`min(backoff * 2, MAX_BACKOFF_MS)`). -/
def scheduleReconnect (c : ConnectorBackoff) : Nat × ConnectorBackoff :=
  (c.backoff, ⟨min (c.backoff * 2) MAX_BACKOFF_MS⟩)

/-- The delays of `n` consecutive failed connection attempts (each failure
calls `scheduleReconnect` with no intervening socket open). -/
def reconnectDelays (c : ConnectorBackoff) : Nat → List Nat
  | 0 => []
  | n + 1 =>
    let step := scheduleReconnect c
    step.1 :: reconnectDelays step.2 n

/-! ## HealthMonitor and GET /v1/health
    (the unnamed monitoring file, packages/api/src/routes/health.ts) -/

/-- Connector status (`FeedState.status`). -/
inductive FeedStatus where
  | connecting
  | connected
  | disconnected
deriving Repr, DecidableEq

/-- Response of `HealthMonitor.checkHealth`. -/
structure HealthCheckResponse where
  healthy : Bool
  parserCheck : Bool
  feedsCheck : Bool
  databaseCheck : Bool
deriving Repr, DecidableEq

/-- `getHeartbeatAge(parserHeartbeat)`: seconds since `lastParseTime`,
`none` standing for the `Infinity` (or NaN) produced when there is no
heartbeat or its timestamp does not parse.  `parseDateIso`-style date
parsing is abstracted by `parseMs` (`new Date(s).getTime()`); JS
`Math.floor` of the quotient is floor division. -/
def getHeartbeatAge (parseMs : String → Option Int) (nowMs : Int)
    (hb : Option Heartbeat) : Option Int :=
  match hb with
  | none => none
  | some h =>
    match parseMs h.lastParseTime with
    | none => none
    | some t => some (Int.fdiv (nowMs - t) 1000)

/-- `HealthMonitor.checkHealth`: parser healthy iff the heartbeat age is
strictly below the configured timeout (an infinite age never is), feeds
healthy iff at least one connector is connected, database healthy iff
`store.count()` did not throw (`countOk`). -/
def checkHealth (parseMs : String → Option Int) (nowMs : Int) (hb : Option Heartbeat)
    (parserTimeoutSeconds : Int) (wolfx p2p : FeedStatus) (countOk : Bool) :
    HealthCheckResponse :=
  let parserHealthy :=
    match getHeartbeatAge parseMs nowMs hb with
    | some a => decide (a < parserTimeoutSeconds)
    | none => false
  let feedsHealthy := wolfx == FeedStatus.connected || p2p == FeedStatus.connected
  let databaseHealthy := countOk
  { healthy := parserHealthy && feedsHealthy && databaseHealthy,
    parserCheck := parserHealthy, feedsCheck := feedsHealthy,
    databaseCheck := databaseHealthy }

/-- The `GET /v1/health` route: HTTP status 200 when healthy, 503
otherwise. -/
def healthRouteStatus (h : HealthCheckResponse) : Nat :=
  if h.healthy then 200 else 503

/-! ## MetricsCollector.performRollup (packages/api/src/metrics.ts) -/

/-- One row of `request_logs`. -/
structure RequestLog where
  timestamp : Int
  endpoint : String
  method : String
  status : Int
  duration_ms : Rat
  ip : String
  user_agent : String
deriving Repr, DecidableEq

/-- The composite primary key of `metrics_rollup`. -/
structure RollupKey where
  timestamp : Int
  interval_seconds : Int
  metric_name : String
  labels : String
deriving Repr, DecidableEq

/-- The non-key columns of a `metrics_rollup` row. -/
structure RollupVal where
  value : Rat
  rowCount : Int
deriving Repr, DecidableEq

/-- The `metrics_rollup` table as a map from its primary key to the stored
row. -/
abbrev RollupTable := RollupKey → Option RollupVal

/-- `INSERT OR REPLACE INTO metrics_rollup`: upsert on the composite
primary key. -/
def upsertRollup (tbl : RollupTable) (k : RollupKey) (v : RollupVal) : RollupTable :=
  fun q => if q = k then some v else tbl q

/-- Apply a list of upserts in order. -/
def applyWrites (ws : List (RollupKey × RollupVal)) (tbl : RollupTable) : RollupTable :=
  ws.foldl (fun t kv => upsertRollup t kv.1 kv.2) tbl

/-- The last write to key `k` in a write list. -/
def lastWrite (ws : List (RollupKey × RollupVal)) (k : RollupKey) : Option RollupVal :=
  ws.foldl (fun acc kv => if kv.1 = k then some kv.2 else acc) none

/-- The distinct `(endpoint, status)` pairs of `GROUP BY endpoint, status`,
determinized to first-occurrence order. -/
def dedupFirst : List (String × Int) → List (String × Int)
  | [] => []
  | k :: rest => k :: dedupFirst (rest.filter (fun x => x ≠ k))
termination_by l => l.length
decreasing_by
  simp only [List.length_cons]
  exact Nat.lt_succ_of_le (List.length_filter_le _ _)

/-- The label JSON `JSON.stringify({endpoint, status})`. -/
def labelsEndpointStatus (endpoint : String) (status : Int) : String :=
  "\x7b\"endpoint\":\"" ++ jsonEscape endpoint ++ "\",\"status\":\"" ++
    toString status ++ "\"\x7d"

/-- The label JSON `JSON.stringify({endpoint})`. -/
def labelsEndpoint (endpoint : String) : String :=
  "\x7b\"endpoint\":\"" ++ jsonEscape endpoint ++ "\"\x7d"

/-- The upserts performed by `performRollup` for the closed window
`[w - intervalSeconds, w)`: per `(endpoint, status)` group a
`requests_total` row (value = row count, count = 1) and a
`request_duration_avg` row keyed on the endpoint alone
(value = average duration, count = row count). -/
def rollupWrites (intervalSeconds : Int) (w : Int) (logs : List RequestLog) :
    List (RollupKey × RollupVal) :=
  let inWindow := logs.filter fun l =>
    decide (w - intervalSeconds ≤ l.timestamp) && decide (l.timestamp < w)
  (dedupFirst (inWindow.map fun l => (l.endpoint, l.status))).flatMap fun g =>
    let rows := inWindow.filter fun l => l.endpoint == g.1 && l.status == g.2
    let cnt : Int := rows.length
    let avg : Rat := (rows.map RequestLog.duration_ms).sum / (rows.length : Rat)
    [(⟨w - intervalSeconds, intervalSeconds, "requests_total",
        labelsEndpointStatus g.1 g.2⟩, ⟨(cnt : Rat), 1⟩),
     (⟨w - intervalSeconds, intervalSeconds, "request_duration_avg",
        labelsEndpoint g.1⟩, ⟨avg, cnt⟩)]

/-- `MetricsCollector.performRollup()`: compute `currentWindow` from `now`
(seconds) and the configured interval, and upsert the aggregated rows of
the closed window `[currentWindow - interval, currentWindow)`. -/
def performRollup (intervalSeconds : Int) (now : Int) (logs : List RequestLog)
    (tbl : RollupTable) : RollupTable :=
  let currentWindow := now - now % intervalSeconds
  applyWrites (rollupWrites intervalSeconds currentWindow logs) tbl

/-! ## Concrete inputs used by the scenario parts and witnesses -/

/-- A concrete event with `eventId = "A"`. -/
def evA : EventRecord :=
  { eventId := "A", source := "JMA", type := "EEW", reportType := some (.str "111"),
    time := "2024-01-01T00:00:00Z", issueTime := none,
    receiveTime := "2024-01-01T00:00:05Z", receiveSource := "WolfX",
    latitude := some 35, longitude := some 139, magnitude := some 5,
    depth := some 10, intensity := none, region := some "Tokyo",
    advisory := none, revision := none }

/-- A concrete event with `eventId = "B"` and a strictly greater `time`. -/
def evB : EventRecord :=
  { evA with eventId := "B", time := "2024-01-02T00:00:00Z" }

/-- A concrete signing function for witnesses. -/
def sigEvent0 : EventRecord → SignedEnvelope :=
  fun e => { payload := e.eventId, signature := "sig", timestamp := 0 }

/-- A concrete JS environment; the C4 inputs never reach its abstracted
parts. -/
def env0 : JsEnv :=
  { nowIso := "2024-01-01T00:00:00.000Z", nowMs := 1700000000000,
    parseDateIso := fun _ => none, numOfString := fun _ => none,
    strOfNum := fun _ => "" }

/-- A schema-valid P2P user-perception frame with code 9611. -/
def frame9611 : P2pPayload :=
  { code := 9611, time := some "2024-06-01T00:00:00Z", id := some "q1",
    count := some 12 }

/-- A schema-valid P2P earthquake-information frame with code 551. -/
def frame551 : P2pPayload :=
  { code := 551, time := some "2024-06-01T00:00:00Z", id := some "q2",
    eq_magnitude := some (.inr 5), hypo_name := some "Tokyo" }

/-- A heartbeat carrying an error (and no KMA connection). -/
def hbErr : Heartbeat :=
  { kmaConnection := false, lastParseTime := "2024-01-01T00:00:00Z",
    lastEventTime := none, delayMs := 0, error := some "parse failed" }

/-- A heartbeat reporting the KMA authority reachable. -/
def hbKma : Heartbeat :=
  { kmaConnection := true, lastParseTime := "2024-01-01T00:00:00Z",
    lastEventTime := none, delayMs := 0, error := none }

/-- Three request logs inside the window `[120, 180)` for interval 60. -/
def logsDemo : List RequestLog :=
  [{ timestamp := 130, endpoint := "GET /v1/events", method := "GET", status := 200,
     duration_ms := 5, ip := "1.2.3.4", user_agent := "ua" },
   { timestamp := 140, endpoint := "GET /v1/events", method := "GET", status := 200,
     duration_ms := 7, ip := "1.2.3.4", user_agent := "ua" },
   { timestamp := 150, endpoint := "GET /v1/events", method := "GET", status := 429,
     duration_ms := 1, ip := "5.6.7.8", user_agent := "ua" }]

/-- The empty `metrics_rollup` table. -/
def emptyRollup : RollupTable := fun _ => none

/-- A system state whose store already holds `evA`. -/
def demoState : SystemState := { initialState with events := [evA] }

/-! ## Helper lemmas -/

theorem eventId_inj {tbl : EventsTable} (h : uniqueIds tbl) :
    ∀ r ∈ tbl, ∀ x ∈ tbl, x.eventId = r.eventId → x = r := by
  induction tbl with
  | nil => intro r hr; cases hr
  | cons e t ih =>
    have h' : e.eventId ∉ t.map EventRecord.eventId ∧ uniqueIds t := by
      simpa [uniqueIds, List.nodup_cons] using h
    intro r hr x hx hid
    rcases List.mem_cons.mp hr with hr1 | hr2
    · rcases List.mem_cons.mp hx with hx1 | hx2
      · rw [hx1, hr1]
      · exact absurd (List.mem_map_of_mem EventRecord.eventId hx2)
          (by rw [hid, hr1]; exact h'.1)
    · rcases List.mem_cons.mp hx with hx1 | hx2
      · exact absurd (List.mem_map_of_mem EventRecord.eventId hr2)
          (by rw [← hid, hx1]; exact h'.1)
      · exact ih h'.2 r hr2 x hx2 hid

theorem insertRow_not_mem {tbl : EventsTable} {ev : EventRecord}
    (h : ¬ tbl.any (fun r => r.eventId == ev.eventId) = true) :
    ∀ r ∈ tbl, r.eventId ≠ ev.eventId := by
  intro r hr
  simp only [List.any_eq_true, beq_iff_eq, not_exists] at h
  exact fun hid => (h r) ⟨hr, hid⟩

theorem insertRow_mem {tbl : EventsTable} {ev r : EventRecord} (h : r ∈ tbl) :
    r ∈ (EventStore.insertRow tbl ev).1 := by
  unfold EventStore.insertRow
  split
  · exact h
  · exact List.mem_append_left _ h

theorem insertRow_uniq {tbl : EventsTable} {ev : EventRecord} (h : uniqueIds tbl) :
    uniqueIds (EventStore.insertRow tbl ev).1 := by
  unfold EventStore.insertRow
  split
  · exact h
  · rename_i hany
    have hmem := insertRow_not_mem hany
    simp only [uniqueIds, List.map_append, List.map_cons, List.map_nil]
    rw [List.nodup_append]
    refine ⟨h, List.nodup_singleton _, ?_⟩
    intro a ha hb
    simp only [List.mem_singleton] at hb
    rcases List.mem_map.mp ha with ⟨r, hr, hid⟩
    exact hmem r hr (hid.symm ▸ hb)

theorem insertRow_len {tbl : EventsTable} {ev : EventRecord} :
    tbl.length + (EventStore.insertRow tbl ev).2 = (EventStore.insertRow tbl ev).1.length := by
  unfold EventStore.insertRow
  split <;> simp

theorem insert_props (evs : List EventRecord) :
    ∀ tbl : EventsTable, uniqueIds tbl →
      uniqueIds (EventStore.insert tbl evs).1 ∧
      (∀ r ∈ tbl, r ∈ (EventStore.insert tbl evs).1) ∧
      tbl.length + (EventStore.insert tbl evs).2 = (EventStore.insert tbl evs).1.length := by
  induction evs with
  | nil => intro tbl h; exact ⟨h, fun r hr => hr, by simp [EventStore.insert]⟩
  | cons ev rest ih =>
    intro tbl h
    have hstep := @insertRow_uniq tbl ev h
    obtain ⟨h1, h2, h3⟩ := ih (EventStore.insertRow tbl ev).1 hstep
    refine ⟨?_, ?_, ?_⟩
    · simpa [EventStore.insert] using h1
    · intro r hr
      simpa [EventStore.insert] using h2 r (insertRow_mem hr)
    · show tbl.length + (EventStore.insert tbl (ev :: rest)).2 = _
      have hlen := @insertRow_len tbl ev
      simp only [EventStore.insert]
      omega

theorem charListLt_irrefl : ∀ l : List Char, charListLt l l = false
  | [] => rfl
  | a :: as => by simp [charListLt, charListLt_irrefl as]

theorem charListLt_trans : ∀ {a b c : List Char}, charListLt a b = true →
    charListLt b c = true → charListLt a c = true := by
  intro a
  induction a with
  | nil =>
    intro b c h1 h2
    match b, c with
    | [], _ => simp [charListLt] at h1
    | _ :: _, [] => simp [charListLt] at h2
    | _ :: _, _ :: _ => rfl
  | cons a0 as ih =>
    intro b c h1 h2
    match b, c with
    | [], _ => simp [charListLt] at h1
    | _ :: _, [] => simp [charListLt] at h2
    | b0 :: bs, c0 :: cs =>
      simp only [charListLt] at h1 h2 ⊢
      by_cases hab : a0 = b0
      · subst hab
        by_cases hbc : a0 = c0
        · subst hbc
          simp only [if_pos rfl] at h1 h2 ⊢
          exact ih h1 h2
        · simp only [if_pos rfl, if_neg hbc] at h2 ⊢
          exact h2
      · by_cases hbc : b0 = c0
        · subst hbc
          simp only [if_neg hab] at h1 ⊢
          exact h1
        · simp only [if_neg hab, if_neg hbc] at h1 h2
          have h3 : a0 < b0 := of_decide_eq_true h1
          have h4 : b0 < c0 := of_decide_eq_true h2
          have h5 : a0 < c0 := lt_trans h3 h4
          simp [if_neg (ne_of_lt h5), h5]

theorem charListLt_asymm {a b : List Char} (h : charListLt a b = true) :
    charListLt b a = false := by
  by_contra hc
  have h2 : charListLt b a = true := by
    cases hval : charListLt b a
    · exact absurd hval hc
    · rfl
  have := charListLt_trans h h2
  rw [charListLt_irrefl] at this
  cases this

theorem charListLt_conn : ∀ {a b : List Char}, charListLt a b = false →
    charListLt b a = false → a = b := by
  intro a
  induction a with
  | nil =>
    intro b h1 _
    match b with
    | [] => rfl
    | _ :: _ => simp [charListLt] at h1
  | cons a0 as ih =>
    intro b h1 h2
    match b with
    | [] => simp [charListLt] at h2
    | b0 :: bs =>
      simp only [charListLt] at h1 h2
      by_cases hab : a0 = b0
      · subst hab
        simp only [if_pos rfl] at h1 h2
        rw [ih h1 h2]
      · simp only [if_neg hab, if_neg (Ne.symm hab)] at h1 h2
        have h3 : ¬ a0 < b0 := of_decide_eq_false h1
        have h4 : ¬ b0 < a0 := of_decide_eq_false h2
        exact absurd (le_antisymm (le_of_not_lt h4) (le_of_not_lt h3)) hab

theorem strLeB_refl (a : String) : strLeB a a = true := by
  simp [strLeB, strLtB, charListLt_irrefl]

theorem strLeB_of_strLtB {a b : String} (h : strLtB a b = true) : strLeB a b = true := by
  simp [strLeB, strLtB] at *
  exact charListLt_asymm h

theorem strLeB_of_not_strLtB {a b : String} (h : strLtB b a = false) : strLeB a b = true := by
  simp [strLeB, h]

theorem strLeB_trans {a b c : String} (h1 : strLeB a b = true) (h2 : strLeB b c = true) :
    strLeB a c = true := by
  simp only [strLeB, strLtB, Bool.not_eq_true'] at h1 h2 ⊢
  by_contra hc
  have hca : charListLt c.toList a.toList = true := by
    cases hval : charListLt c.toList a.toList
    · exact absurd hval hc
    · rfl
  cases hbc : charListLt b.toList c.toList with
  | true => exact absurd (charListLt_trans hbc hca) (by rw [h1]; simp)
  | false =>
    have heq : b.toList = c.toList := charListLt_conn hbc h2
    rw [← heq] at hca
    exact absurd hca (by rw [h1]; simp)

theorem latest_foldl (es : List EventRecord) :
    ∀ acc : EventRecord,
      (es.foldl (fun best r => if strLtB best.time r.time then r else best) acc = acc ∨
        es.foldl (fun best r => if strLtB best.time r.time then r else best) acc ∈ es) ∧
      strLeB acc.time (es.foldl (fun best r => if strLtB best.time r.time then r else best) acc).time = true ∧
      ∀ r ∈ es, strLeB r.time (es.foldl (fun best r => if strLtB best.time r.time then r else best) acc).time = true := by
  induction es with
  | nil => intro acc; exact ⟨Or.inl rfl, strLeB_refl _, by intro r hr; cases hr⟩
  | cons e es ih =>
    intro acc
    obtain ⟨hmem, hacc, hall⟩ := ih (if strLtB acc.time e.time then e else acc)
    have hstep : strLeB acc.time (if strLtB acc.time e.time then e else acc).time = true := by
      split
      · exact strLeB_of_strLtB (by assumption)
      · exact strLeB_refl _
    have hstepE : strLeB e.time (if strLtB acc.time e.time then e else acc).time = true := by
      split
      · exact strLeB_refl _
      · exact strLeB_of_not_strLtB (by simp_all)
    refine ⟨?_, ?_, ?_⟩
    · simp only [List.foldl_cons]
      rcases hmem with hm | hm
      · rw [hm]
        split
        · exact Or.inr (List.mem_cons_self _ _)
        · exact Or.inl rfl
      · exact Or.inr (List.mem_cons_of_mem _ hm)
    · simp only [List.foldl_cons]
      exact strLeB_trans hstep hacc
    · intro r hr
      simp only [List.foldl_cons]
      rcases List.mem_cons.mp hr with h1 | h2
      · subst h1; exact strLeB_trans hstepE hacc
      · exact hall r h2

theorem latest_spec {tbl : EventsTable} {m : EventRecord}
    (h : EventStore.latest tbl = some m) :
    m ∈ tbl ∧ ∀ r ∈ tbl, strLeB r.time m.time = true := by
  match tbl, h with
  | e :: es, h =>
    have hm : m = es.foldl (fun best r => if strLtB best.time r.time then r else best) e := by
      simpa [EventStore.latest] using h.symm
    obtain ⟨hmem, hacc, hall⟩ := latest_foldl es e
    subst hm
    constructor
    · rcases hmem with h1 | h1
      · rw [h1]; exact List.mem_cons_self _ _
      · exact List.mem_cons_of_mem _ h1
    · intro r hr
      rcases List.mem_cons.mp hr with h1 | h1
      · exact h1 ▸ hacc
      · exact hall r h1

/-! ## Claims -/

/-- `EventStore.insert` against a driver whose `changes` field is accurate
(the SQLite semantics the `SqlDatabase` type is written against): at most
one row per eventId, no overwrite, and the returned count equals the
number of rows newly materialized; the dedup scenario behaves as §4.1 of
the spec describes. -/
theorem insert_dedup_sql (tbl evs : List EventRecord) (h : uniqueIds tbl) :
    (uniqueIds (EventStore.insert tbl evs).1
      ∧ (∀ r ∈ tbl, r ∈ (EventStore.insert tbl evs).1)
      ∧ (∀ r ∈ tbl, ∀ x ∈ (EventStore.insert tbl evs).1, x.eventId = r.eventId → x = r)
      ∧ tbl.length + (EventStore.insert tbl evs).2 = (EventStore.insert tbl evs).1.length)
    ∧ ((EventStore.insert ([] : EventsTable) [evA]).2 = 1
      ∧ (EventStore.insert (EventStore.insert ([] : EventsTable) [evA]).1 [evA, evB]).2 = 1
      ∧ EventStore.count (EventStore.insert (EventStore.insert ([] : EventsTable) [evA]).1 [evA, evB]).1 = 2
      ∧ EventStore.latest (EventStore.insert (EventStore.insert ([] : EventsTable) [evA]).1 [evA, evB]).1 = some evB
      ∧ ∀ r ∈ (EventStore.insert (EventStore.insert ([] : EventsTable) [evA]).1 [evA, evB]).1,
          strLeB r.time evB.time = true) := by
  obtain ⟨h1, h2, h3⟩ := insert_props evs tbl h
  refine ⟨⟨h1, h2, ?_, h3⟩, ?_⟩
  · intro r hr x hx hid
    exact eventId_inj h1 r (h2 r hr) x hx hid
  · refine ⟨by decide, by decide, by decide, by decide, ?_⟩
    have htbl : (EventStore.insert (EventStore.insert ([] : EventsTable) [evA]).1 [evA, evB]).1
        = [evA, evB] := by decide
    rw [htbl]
    intro r hr
    rcases List.mem_cons.mp hr with hcase | hcase
    · subst hcase; decide
    · rcases List.mem_cons.mp hcase with hcase2 | hcase2
      · subst hcase2; decide
      · exact absurd hcase2 (List.not_mem_nil r)

/-- C1: the dedup itself holds in the deployed store (each eventId
materializes at most one row, a duplicate insert is ignored and never
overwrites, `count() = 2`, `latest()` returns the event with the greatest
time), but the returned count does NOT equal the number of newly
materialized rows: the Durable Object's `SqliteAdapter.run` hardcodes
`{ changes: 1 }`, so `insert([evA])` then `insert([evA, evB])` return
counts 1 and 2 — the claim says 1 and 1.  Against a changes-accurate
driver the counts are 1 and 1 (see `insert_dedup_sql`). -/
theorem c1_insert_count_adapter_bug :
    (EventStore.insertDO ([] : EventsTable) [evA]).2 = 1 ∧
    (EventStore.insertDO (EventStore.insertDO ([] : EventsTable) [evA]).1 [evA, evB]).2 = 2 ∧
    (EventStore.insertDO (EventStore.insertDO ([] : EventsTable) [evA]).1 [evA, evB]).1
      = (EventStore.insert (EventStore.insert ([] : EventsTable) [evA]).1 [evA, evB]).1 ∧
    (EventStore.insert (EventStore.insert ([] : EventsTable) [evA]).1 [evA, evB]).2 = 1 ∧
    EventStore.count (EventStore.insertDO (EventStore.insertDO ([] : EventsTable) [evA]).1
      [evA, evB]).1 = 2 ∧
    uniqueIds (EventStore.insertDO (EventStore.insertDO ([] : EventsTable) [evA]).1
      [evA, evB]).1 ∧
    EventStore.latest (EventStore.insertDO (EventStore.insertDO ([] : EventsTable) [evA]).1
      [evA, evB]).1 = some evB :=
  ⟨by decide, by decide, by decide, by decide, by decide, by decide, by decide⟩

/-- C2: with rate limiting enabled and a configured rule `{m, w}` for the
endpoint, within one fixed window the very first `RateLimiter.check` call
is allowed and stores counter 1; after `k < m` allowed calls the next call
is still allowed; once the counter reaches `m`, `check` denies and does not
mutate the stored row; and when the stored row belongs to another window,
the first call of the new window is allowed with `remaining = m - 1`. -/
theorem c2_ratelimit_check (m w now : Nat) (hm : 0 < m) (_hw : 0 < w) :
    (∀ row : Option RateRow,
      (∀ r, row = some r → r.window_start ≠ now - now % w) →
      RateLimiter.check true (some ⟨m, w⟩) row now
        = ({ allowed := true, limit := m, remaining := m - 1,
             resetAt := (now - now % w) + w }, some ⟨1, now - now % w⟩)) ∧
    (∀ k : Nat, k < m →
      RateLimiter.check true (some ⟨m, w⟩) (some ⟨k, now - now % w⟩) now
        = ({ allowed := true, limit := m, remaining := m - k - 1,
             resetAt := (now - now % w) + w }, some ⟨k + 1, now - now % w⟩)) ∧
    (∀ c : Nat, m ≤ c →
      (RateLimiter.check true (some ⟨m, w⟩) (some ⟨c, now - now % w⟩) now).1.allowed = false ∧
      (RateLimiter.check true (some ⟨m, w⟩) (some ⟨c, now - now % w⟩) now).2
        = some ⟨c, now - now % w⟩) ∧
    (∀ k : Nat, k ≤ m →
      RateLimiter.checkN true (some ⟨m, w⟩) now k none
        = if k = 0 then none else some ⟨k, now - now % w⟩) := by
  refine ⟨?_, ?_, ?_, ?_⟩
  · intro row hrow
    match row with
    | none => simp [RateLimiter.check, hm]
    | some r =>
      have hne := hrow r rfl
      simp [RateLimiter.check, hne, hm]
  · intro k hk
    simp [RateLimiter.check, hk, Nat.lt_irrefl]
  · intro c hc
    have hnc : ¬ c < m := Nat.not_lt.mpr hc
    constructor <;> simp [RateLimiter.check, hnc]
  · intro k hk
    induction k with
    | zero => rfl
    | succ n ih =>
      have hn : n ≤ m := Nat.le_of_succ_le hk
      have hlt : n < m := hk
      rw [RateLimiter.checkN, ih hn]
      cases hn0 : n with
      | zero =>
        simp only [if_pos rfl]
        simp [RateLimiter.check, hm]
      | succ p =>
        rw [if_neg (by omega), if_neg (by omega)]
        subst hn0
        simp [RateLimiter.check, hlt]

/-- Witness for C2 at the rule `{maxRequests := 3, windowSeconds := 60}`
checked at second 125 (window start 120). -/
theorem c2_ratelimit_check_witness :
    0 < 3 ∧ 0 < 60 ∧
    RateLimiter.check true (some ⟨3, 60⟩) (some ⟨2, 120⟩) 125
      = ({ allowed := true, limit := 3, remaining := 0, resetAt := 180 }, some ⟨3, 120⟩) :=
  ⟨by decide, by decide,
    by
      have h := (c2_ratelimit_check 3 60 125 (by decide) (by decide)).2.1 2 (by decide)
      simpa using h⟩

theorem handleHeartbeat_kma {s : SystemState} {hb : Heartbeat}
    (h : hb.kmaConnection = true) : (handleHeartbeat s hb).needsKmaSync = false := by
  simp only [handleHeartbeat, h]
  cases s.needsKmaSync <;> simp

theorem handleIncomingEvents_needs (f : EventRecord → SignedEnvelope) (now : String)
    (s : SystemState) (evs : List EventRecord) :
    (handleIncomingEvents f now s evs).needsKmaSync = s.needsKmaSync := by
  simp only [handleIncomingEvents]
  split
  · rfl
  · split <;> rfl

/-- C3: the sync handshake never fires.  The route file calls
`handleHeartbeat` before it reads `wasNeeded` from
`ingestService.needsKmaSync`, so by the time `wasNeeded` is read the flag
has already been cleared whenever `heartbeat.kmaConnection` is true: every
`POST /v1/events` — including the very first one with the authority
reachable — responds 204, and 200 `{sync:true}` is unreachable.  The
second conjunct evaluates the route at the claim's failing input (first
post, fresh state): the flag is cleared, yet the response is 204. -/
theorem c3_sync_handshake_never_fires :
    (∀ (signFn : EventRecord → SignedEnvelope) (now : String) (s : SystemState)
        (payload : IngestPayload),
      (postEvents signFn now s payload).2 = EventsResponse.noContent) ∧
    (postEvents sigEvent0 "2024-01-01T00:00:10Z" initialState
        { heartbeat := some hbKma, events := none }).1.needsKmaSync = false := by
  constructor
  · intro signFn now s payload
    obtain ⟨hbOpt, evsOpt⟩ := payload
    cases hbOpt with
    | none => simp [postEvents]
    | some hb =>
      cases hk : hb.kmaConnection with
      | false => simp [postEvents, hk]
      | true =>
        have h1 := @handleHeartbeat_kma s hb hk
        cases evsOpt with
        | none => simp [postEvents, h1, hk]
        | some evs =>
          by_cases he : evs.length = 0
          · simp [postEvents, he, h1]
          · simp [postEvents, he, handleIncomingEvents_needs, h1]
  · decide

/-- C4: the allow-list actually enforced by `FeedManager.handleP2pMessage`
is `{551, 552, 556, 561}` — code 9611 is NOT in it.  A schema-valid frame
with code 9611 is dropped before normalization even though
`normalizeP2pEvent` has a dedicated (otherwise unreachable) branch that
normalizes it successfully, contradicting the claim that 9611 frames are
normalized and handed to ingest.  Frames with an allowed code (e.g. 551)
are normalized and handed to ingest. -/
theorem c4_p2p_allowlist_excludes_9611 :
    (9611 : Int) ∉ ALLOWED_CODES ∧
    handleP2pMessage env0 (some frame9611) = none ∧
    (normalizeP2pEvent env0 frame9611).isSome = true ∧
    handleP2pMessage env0 (some frame551) = normalizeP2pEvent env0 frame551 ∧
    (normalizeP2pEvent env0 frame551).isSome = true := by
  refine ⟨by decide, ?_, ?_, ?_, ?_⟩
  · simp [handleP2pMessage, frame9611, ALLOWED_CODES]
  · simp [normalizeP2pEvent, frame9611]
  · simp [handleP2pMessage, frame551, ALLOWED_CODES]
  · simp [normalizeP2pEvent, frame551]

/-- C5: `checkHealth` reports the parser healthy iff the heartbeat age is
finite and strictly below `parserTimeoutSeconds`, feeds healthy iff at
least one of the two connectors is connected, database healthy iff
`count()` did not throw; overall health is the conjunction of the three;
and `GET /v1/health` responds 200 exactly when healthy and 503 exactly
when not. -/
theorem c5_health_classification (parseMs : String → Option Int) (nowMs : Int)
    (hb : Option Heartbeat) (timeout : Int) (wolfx p2p : FeedStatus) (countOk : Bool) :
    ((checkHealth parseMs nowMs hb timeout wolfx p2p countOk).parserCheck = true ↔
      (∃ a, getHeartbeatAge parseMs nowMs hb = some a ∧ a < timeout)) ∧
    ((checkHealth parseMs nowMs hb timeout wolfx p2p countOk).feedsCheck = true ↔
      (wolfx = FeedStatus.connected ∨ p2p = FeedStatus.connected)) ∧
    ((checkHealth parseMs nowMs hb timeout wolfx p2p countOk).databaseCheck = countOk) ∧
    ((checkHealth parseMs nowMs hb timeout wolfx p2p countOk).healthy =
      ((checkHealth parseMs nowMs hb timeout wolfx p2p countOk).parserCheck &&
        (checkHealth parseMs nowMs hb timeout wolfx p2p countOk).feedsCheck &&
        (checkHealth parseMs nowMs hb timeout wolfx p2p countOk).databaseCheck)) ∧
    (healthRouteStatus (checkHealth parseMs nowMs hb timeout wolfx p2p countOk) = 200 ↔
      (checkHealth parseMs nowMs hb timeout wolfx p2p countOk).healthy = true) ∧
    (healthRouteStatus (checkHealth parseMs nowMs hb timeout wolfx p2p countOk) = 503 ↔
      (checkHealth parseMs nowMs hb timeout wolfx p2p countOk).healthy = false) := by
  refine ⟨?_, ?_, rfl, rfl, ?_, ?_⟩
  · simp only [checkHealth]
    cases hage : getHeartbeatAge parseMs nowMs hb with
    | none => simp
    | some a => simp
  · simp only [checkHealth]
    cases wolfx <;> cases p2p <;> simp
  · simp only [healthRouteStatus]
    cases hh : (checkHealth parseMs nowMs hb timeout wolfx p2p countOk).healthy <;> simp
  · simp only [healthRouteStatus]
    cases hh : (checkHealth parseMs nowMs hb timeout wolfx p2p countOk).healthy <;> simp

/-- C6: after a socket open (which resets the backoff to 2 s), the delays
of consecutive failed connection attempts are
`[2, 4, 8, 16, 32, 60, 60] s`, each delay is
`min(previous * 2, 60 s)`, and the first delay after any open is 2 s. -/
theorem c6_reconnect_backoff (s : ConnectorBackoff) :
    reconnectDelays (onSocketOpen s) 7 = [2000, 4000, 8000, 16000, 32000, 60000, 60000] ∧
    (scheduleReconnect (onSocketOpen s)).1 = 2000 ∧
    (∀ (b n i : Nat), i + 1 < n →
      (reconnectDelays ⟨b⟩ n).getD (i + 1) 0
        = min ((reconnectDelays ⟨b⟩ n).getD i 0 * 2) MAX_BACKOFF_MS) := by
  refine ⟨?_, rfl, ?_⟩
  · have h : reconnectDelays ⟨2000⟩ 7 = [2000, 4000, 8000, 16000, 32000, 60000, 60000] := by
      decide
    simpa [onSocketOpen, BASE_BACKOFF_MS] using h
  intro b n
  induction n generalizing b with
  | zero => intro i h; exact absurd h (Nat.not_lt_zero _)
  | succ m ih =>
    intro i h
    simp only [reconnectDelays, scheduleReconnect, List.getD_cons_succ]
    cases i with
    | zero =>
      cases m with
      | zero => omega
      | succ k =>
        simp [reconnectDelays, scheduleReconnect, List.getD_cons_zero]
    | succ j =>
      have hj : j + 1 < m := by omega
      simpa [List.getD_cons_succ] using ih (min (b * 2) MAX_BACKOFF_MS) j hj

/-- Witness for C6: the sixth delay follows from the fifth by the capped
doubling rule. -/
theorem c6_reconnect_backoff_witness :
    4 + 1 < 7 ∧
    (reconnectDelays ⟨2000⟩ 7).getD 5 0
      = min ((reconnectDelays ⟨2000⟩ 7).getD 4 0 * 2) MAX_BACKOFF_MS :=
  ⟨by decide, (c6_reconnect_backoff ⟨2000⟩).2.2 2000 7 4 (by decide)⟩

theorem lastWrite_foldl (k : RollupKey) :
    ∀ (ws : List (RollupKey × RollupVal)) (o : Option RollupVal),
      ws.foldl (fun acc kv => if kv.1 = k then some kv.2 else acc) o
        = match lastWrite ws k with
          | some v => some v
          | none => o := by
  intro ws
  induction ws with
  | nil => intro o; simp [lastWrite]
  | cons kv ws ih =>
    intro o
    have hrw : lastWrite (kv :: ws) k
        = match lastWrite ws k with
          | some v => some v
          | none => if kv.1 = k then some kv.2 else none := by
      simp only [lastWrite, List.foldl_cons]
      exact ih _
    simp only [List.foldl_cons]
    rw [ih, hrw]
    cases h : lastWrite ws k with
    | some v => rfl
    | none =>
      by_cases hk : kv.1 = k
      · simp [hk]
      · simp [hk]

theorem applyWrites_eval (k : RollupKey) :
    ∀ (ws : List (RollupKey × RollupVal)) (tbl : RollupTable),
      applyWrites ws tbl k
        = match lastWrite ws k with
          | some v => some v
          | none => tbl k := by
  intro ws
  induction ws with
  | nil => intro tbl; simp [applyWrites, lastWrite]
  | cons kv ws ih =>
    intro tbl
    have hrw : lastWrite (kv :: ws) k
        = match lastWrite ws k with
          | some v => some v
          | none => if kv.1 = k then some kv.2 else none := by
      simp only [lastWrite, List.foldl_cons]
      exact lastWrite_foldl k ws _
    have hstep : applyWrites (kv :: ws) tbl = applyWrites ws (upsertRollup tbl kv.1 kv.2) := rfl
    rw [hstep, ih, hrw]
    cases h : lastWrite ws k with
    | some v => rfl
    | none =>
      simp only [upsertRollup]
      by_cases hk : kv.1 = k
      · simp [hk]
      · simp [hk, Ne.symm hk]

theorem applyWrites_idem (ws : List (RollupKey × RollupVal)) (tbl : RollupTable) :
    applyWrites ws (applyWrites ws tbl) = applyWrites ws tbl := by
  funext k
  rw [applyWrites_eval k ws, applyWrites_eval k ws]
  cases h : lastWrite ws k with
  | some v => rfl
  | none => rfl

/-- C7: `performRollup` is idempotent over a fixed window: with the
`request_logs` contents fixed, two calls at times mapping to the same
`currentWindow` leave exactly the same `metrics_rollup` rows (for every
key, hence for the `requests_total` and `request_duration_avg` rows) as
the first call alone. -/
theorem c7_rollup_idempotent (intervalSeconds t1 t2 : Int) (logs : List RequestLog)
    (tbl : RollupTable) (h : t1 - t1 % intervalSeconds = t2 - t2 % intervalSeconds) :
    performRollup intervalSeconds t2 logs (performRollup intervalSeconds t1 logs tbl)
      = performRollup intervalSeconds t1 logs tbl := by
  simp only [performRollup]
  rw [← h]
  exact applyWrites_idem _ _

/-- Witness for C7 at interval 60 s, call times 130 and 170 (both in window
120), over three concrete request logs. -/
theorem c7_rollup_idempotent_witness :
    (130 : Int) - 130 % 60 = 170 - 170 % 60 ∧
    performRollup 60 170 logsDemo (performRollup 60 130 logsDemo emptyRollup)
      = performRollup 60 130 logsDemo emptyRollup :=
  ⟨by decide, c7_rollup_idempotent 60 130 170 logsDemo emptyRollup (by decide)⟩

/-- C8: `Signer.sign` is deterministic in its signature: two calls on the
same value under the same key produce the same payload (the deterministic
serialization of the value) and the identical base64 signature; only the
timestamp field may differ. -/
theorem c8_signer_deterministic (sig : String → String) (x : JsValue) (t1 t2 : Int) :
    (signerSign sig x t1).payload = (signerSign sig x t2).payload ∧
    (signerSign sig x t1).signature = (signerSign sig x t2).signature ∧
    (signerSign sig x t1).payload = jsonStringify x ∧
    signerSign sig x t1 = { signerSign sig x t2 with timestamp := t1 } :=
  ⟨rfl, rfl, rfl, rfl⟩

/-- C9: via `POST /v1/events` a single submission whose heartbeat carries
an error prepends TWO entries to the parser error ring, not one: the route
file calls `handleHeartbeat` twice per request.  `handleHeartbeat` itself
prepends exactly one entry per call, and the ring bound
`MAX_PARSER_ERRORS = 10` still holds after the call. -/
theorem c9_error_ring_double_prepend :
    (handleHeartbeat initialState hbErr).parserErrorHistory
      = [⟨"2024-01-01T00:00:00Z", "parse failed"⟩] ∧
    (postEvents sigEvent0 "2024-01-01T00:00:10Z" initialState
        { heartbeat := some hbErr, events := none }).1.parserErrorHistory
      = [⟨"2024-01-01T00:00:00Z", "parse failed"⟩,
         ⟨"2024-01-01T00:00:00Z", "parse failed"⟩] ∧
    (postEvents sigEvent0 "2024-01-01T00:00:10Z" initialState
        { heartbeat := some hbErr, events := none }).1.parserErrorHistory.length
      ≤ MAX_PARSER_ERRORS :=
  ⟨by decide, by decide, by decide⟩

/-- C10: broadcasting in `handleIncomingEvents` is gated only on the
batch-level inserted count: when at least one event of the batch is new,
every event of the batch (already-persisted ones included) is signed and
included in the single broadcast, `lastStoredAt` is set and one backup
upload is scheduled; when no event is new, nothing is broadcast,
`lastStoredAt` is unchanged and no backup upload is scheduled. -/
theorem c10_broadcast_gating (signFn : EventRecord → SignedEnvelope) (now : String)
    (s : SystemState) (evs : List EventRecord) :
    (0 < (EventStore.insert s.events evs).2 →
      handleIncomingEvents signFn now s evs
        = { s with events := (EventStore.insert s.events evs).1,
                   lastStoredAt := some now,
                   broadcasts := s.broadcasts ++ [evs.map signFn],
                   backupCount := s.backupCount + 1 }) ∧
    ((EventStore.insert s.events evs).2 = 0 →
      (handleIncomingEvents signFn now s evs).broadcasts = s.broadcasts ∧
      (handleIncomingEvents signFn now s evs).lastStoredAt = s.lastStoredAt ∧
      (handleIncomingEvents signFn now s evs).backupCount = s.backupCount) := by
  constructor
  · intro hpos
    have hne : ¬ evs.length = 0 := by
      intro h0
      rw [List.length_eq_zero.mp h0] at hpos
      simp [EventStore.insert] at hpos
    simp only [handleIncomingEvents, if_neg hne]
    rw [if_pos hpos]
  · intro hz
    by_cases hlen : evs.length = 0
    · simp [handleIncomingEvents, hlen]
    · have hnpos : ¬ 0 < (EventStore.insert s.events evs).2 := by omega
      simp only [handleIncomingEvents, if_neg hlen]
      rw [if_neg hnpos]
      exact ⟨rfl, rfl, rfl⟩

/-- Witness for C10: a batch `[evA, evB]` against a store already holding
`evA` materializes one new row, so the whole batch — the duplicate `evA`
included — is signed and broadcast once. -/
theorem c10_broadcast_gating_witness :
    0 < (EventStore.insert demoState.events [evA, evB]).2 ∧
    handleIncomingEvents sigEvent0 "2024-01-02T00:00:10Z" demoState [evA, evB]
      = { demoState with
            events := (EventStore.insert demoState.events [evA, evB]).1,
            lastStoredAt := some "2024-01-02T00:00:10Z",
            broadcasts := demoState.broadcasts ++ [[evA, evB].map sigEvent0],
            backupCount := demoState.backupCount + 1 } :=
  ⟨by decide,
    (c10_broadcast_gating sigEvent0 "2024-01-02T00:00:10Z" demoState [evA, evB]).1
      (by decide)⟩

end Canaria
